import Mathlib

/-
Verification development for the concurrent rate-limited batch-fetch engine
of the export-folder-discogs repository (app/batch_processor.py together
with the cache gateway in app/database.py).

The Python code is shallowly embedded as executable Lean definitions:

* `TokenBucket` with `_refill`, `consume` and the polling loop of
  `wait_for_token` (fuel-indexed, with an explicit sequential time model in
  which wall-clock time advances exactly by the amount slept).  Python
  floats are modelled as rationals; the two runtime errors the loop body
  can raise (`ZeroDivisionError` from `tokens_needed / self.refill_rate`
  and `ValueError` from `time.sleep` on a negative argument) are explicit
  outcomes.
* one iteration of the worker loop body (`processAttempt`), parameterised
  by the outcome of the cache lookup and of the remote fetch, recording
  every externally visible effect: statistics deltas, token consumption,
  fetch invocation, cache writes, callback invocations, sleeps, re-pushes.
* a single-worker drain loop (`runQueue`) over the priority queue.
* a labelled transition system (`poolStep` / `poolRun`) for the
  interleaved execution of `add_task` (whose queue insert and whose
  `total_tasks` increment are two separate atomic actions, exactly as in
  the code) and of the workers' terminal/retry actions, used for the
  statistics-consistency analysis.
-/

namespace BatchProcessor

/-- State of `TokenBucket` (batch_processor.py lines 26-44): capacity,
refill rate, current tokens and last-refill timestamp, all Python floats
modelled as rationals.  `__init__` sets `tokens = capacity` and
`last_refill = time.time()`. -/
structure TokenBucket where
  capacity : ℚ
  refill_rate : ℚ
  tokens : ℚ
  last_refill : ℚ
deriving DecidableEq

/-- `TokenBucket.__init__(capacity, refill_rate)` called at wall-clock
time `now`. -/
def TokenBucket.make (capacity refill_rate now : ℚ) : TokenBucket :=
  ⟨capacity, refill_rate, capacity, now⟩

/-- `TokenBucket._refill` (lines 46-54): add `elapsed * refill_rate`
tokens, capped at `capacity`, and move `last_refill` forward — but only
when `tokens_to_add > 0`. -/
def TokenBucket._refill (b : TokenBucket) (now : ℚ) : TokenBucket :=
  let elapsed := now - b.last_refill
  let tokens_to_add := elapsed * b.refill_rate
  if 0 < tokens_to_add then
    { b with tokens := min b.capacity (b.tokens + tokens_to_add), last_refill := now }
  else
    b

/-- `TokenBucket.consume` (lines 56-72): refill, then consume `n` tokens
iff at least `n` are available.  Returns the Python boolean result
together with the bucket state after the call. -/
def TokenBucket.consume (b : TokenBucket) (n : ℚ) (now : ℚ) : Bool × TokenBucket :=
  let b1 := b._refill now
  if n ≤ b1.tokens then
    (true, { b1 with tokens := b1.tokens - n })
  else
    (false, b1)

/-- Run a sequence of `consume` calls.  Each list entry `(d, n)` is a call
to `consume n` made `d` seconds after the previous call (so the call
times are non-decreasing exactly when every `d` is non-negative). -/
def TokenBucket.runCalls (b : TokenBucket) (now : ℚ) : List (ℚ × ℚ) → TokenBucket
  | [] => b
  | (d, n) :: rest => TokenBucket.runCalls (b.consume n (now + d)).2 (now + d) rest

/-- Result of one `wait_for_token` call: the returned boolean, or one of
the two runtime errors the loop body can raise, or fuel exhaustion of the
bounded model of the unbounded Python `while True` loop. -/
inductive WaitOutcome where
  | ok (b : Bool)
  | zeroDivisionError
  | valueError
  | fuelOut
deriving DecidableEq

/-- Full result of `wait_for_token`: outcome, final bucket state, final
wall-clock time, and the list of every `time.sleep` duration performed. -/
structure WaitResult where
  outcome : WaitOutcome
  bucket : TokenBucket
  now : ℚ
  sleeps : List ℚ
deriving DecidableEq

/-- The loop of `TokenBucket.wait_for_token` (lines 84-96), fuel-indexed.
Sequential time model: `time.time()` returns `now`, and `now` advances by
exactly the duration passed to `time.sleep`.  The Python guard
`if timeout and (time.time() - start_time) > timeout` is falsy when
`timeout` is `None` or equal to `0`.  `tokens_needed / self.refill_rate`
raises `ZeroDivisionError` when `refill_rate = 0`, and `time.sleep`
raises `ValueError` on a negative argument. -/
def TokenBucket.waitLoop (fuel : ℕ) (b : TokenBucket) (n : ℚ) (timeout : Option ℚ)
    (start_time now : ℚ) (sleeps : List ℚ) : WaitResult :=
  match fuel with
  | 0 => ⟨.fuelOut, b, now, sleeps⟩
  | Nat.succ fuel =>
    let r := b.consume n now
    if r.1 then ⟨.ok true, r.2, now, sleeps⟩
    else
      let timedOut : Bool :=
        match timeout with
        | some t => decide (¬ t = 0) && decide (t < now - start_time)
        | none => false
      if timedOut then ⟨.ok false, r.2, now, sleeps⟩
      else
        let b2 := r.2._refill now
        let tokens_needed := n - b2.tokens
        if b2.refill_rate = 0 then ⟨.zeroDivisionError, b2, now, sleeps⟩
        else
          let wait_time := tokens_needed / b2.refill_rate
          let s := min (1/10 : ℚ) wait_time
          if s < 0 then ⟨.valueError, b2, now, sleeps⟩
          else TokenBucket.waitLoop fuel b2 n timeout start_time (now + s) (sleeps ++ [s])

/-- `TokenBucket.wait_for_token` (lines 74-96) entered at wall-clock time
`now` (so `start_time = now`). -/
def TokenBucket.wait_for_token (fuel : ℕ) (b : TokenBucket) (n : ℚ)
    (timeout : Option ℚ) (now : ℚ) : WaitResult :=
  b.waitLoop fuel n timeout now now []

/-- The record dictionary built by the worker from a fetched release and
returned by the cache gateway (batch_processor.py lines 280-291,
database.py lines 134-145): ten string-valued fields. -/
structure Record where
  title : String
  artists : String
  labels : String
  catno : String
  country : String
  year : String
  genres : String
  styles : String
  price : String
  url : String
deriving DecidableEq

/-- Environment outcome of the database query inside
`DatabaseManager.get_cached_release` (database.py lines 110-150): the row
is absent, or present with a given age in days, or the session raises
(any `Exception`, i.e. a cache error). -/
inductive CacheResult where
  | absent
  | found (r : Record) (ageDays : ℚ)
  | dbError
deriving DecidableEq

/-- `DatabaseManager.get_cached_release` (database.py lines 110-150):
returns the cached record as a dict, `None` when absent, `None` (after
deleting the row) when the entry is older than 30 days, and `None` when
any exception is raised (the `except` branch at lines 146-148 logs and
returns `None`). -/
def get_cached_release : CacheResult → Option Record
  | .absent => none
  | .found r ageDays => if 30 < ageDays then none else some r
  | .dbError => none

/-- Whether `needle` occurs at the head of `haystack`. -/
def startsWithChars : List Char → List Char → Bool
  | [], _ => true
  | _ :: _, [] => false
  | a :: as, b :: bs => a = b && startsWithChars as bs

/-- Python's `needle in haystack` on strings: substring containment. -/
def containsSub (needle : List Char) : List Char → Bool
  | [] => startsWithChars needle []
  | c :: rest => startsWithChars needle (c :: rest) || containsSub needle rest

/-- The string literal `'429'` from batch_processor.py line 309. -/
def msg429 : List Char := ['4', '2', '9']

/-- The string literal `'Expecting value'` from batch_processor.py
line 309. -/
def msgExpectingValue : List Char :=
  ['E', 'x', 'p', 'e', 'c', 't', 'i', 'n', 'g', ' ', 'v', 'a', 'l', 'u', 'e']

/-- The retryability test of batch_processor.py line 309:
`'429' in error_msg or 'Expecting value' in error_msg`, applied to
`error_msg = str(e)`. -/
def retryableMsg (msg : List Char) : Bool :=
  containsSub msg429 msg || containsSub msgExpectingValue msg

/-- Modelled from the spec: the typed error taxonomy
`{RateLimited, Transient, Permanent}` of the abstract `RemoteFetcher`
collaborator (spec section 6), which is not present in the code. -/
inductive ErrorKind where
  | rateLimited
  | transient
  | permanent
deriving DecidableEq

/-- An exception raised by the remote fetch.  The worker loop observes
only `str(e)` (the `msg` field, batch_processor.py line 306); the `kind`
field is the spec-level classification of the error, modelled from the
spec and carried here only so that statements about error kinds can be
expressed — the code never inspects it. -/
structure FetchError where
  kind : ErrorKind
  msg : List Char
deriving DecidableEq

/-- Environment outcome of `discogs_client_instance.release(id)` plus the
field extraction (batch_processor.py lines 235-291): either a record or a
raised exception. -/
inductive FetchResult where
  | success (r : Record)
  | failure (e : FetchError)
deriving DecidableEq

/-- The `Task` dataclass (batch_processor.py lines 99-106), with
`dataclass(order=True)` comparing only `priority`.  The Python callback
function is modelled by a presence flag (`callback is not None`), its
invocations being recorded separately; `metadata` is an opaque value of
type `μ`. -/
structure Task (μ : Type) where
  priority : ℤ
  release_id : ℤ
  hasCallback : Bool
  retry_count : ℕ
  metadata : μ
deriving DecidableEq

/-- The `stats` dictionary of `WorkerPool` (batch_processor.py lines
148-157), restricted to its six counters. -/
structure PoolStats where
  total_tasks : ℕ
  completed : ℕ
  failed : ℕ
  cache_hits : ℕ
  api_calls : ℕ
  retries : ℕ
deriving DecidableEq

/-- The all-zero statistics of a fresh pool. -/
def PoolStats.zero : PoolStats := ⟨0, 0, 0, 0, 0, 0⟩

/-- Pointwise sum of two statistics blocks (used to apply a per-attempt
delta). -/
def PoolStats.add (a b : PoolStats) : PoolStats :=
  ⟨a.total_tasks + b.total_tasks, a.completed + b.completed, a.failed + b.failed,
   a.cache_hits + b.cache_hits, a.api_calls + b.api_calls, a.retries + b.retries⟩

/-- Every externally visible effect of one pass of the worker loop body
over one dequeued task. -/
structure AttemptEffects (μ : Type) where
  delta : PoolStats
  tokenConsumed : Bool
  fetchCalled : Bool
  cachePut : Option (ℤ × Record)
  callbackCalls : List (ℤ × Option Record × μ)
  sleepSeconds : Option ℚ
  repush : Option (Task μ)
deriving DecidableEq

/-- One pass of the worker loop body (batch_processor.py lines 210-330)
over task `t`, given the result `cached` of
`db_manager.get_cached_release(task.release_id)` and the outcome `fetch`
of the remote fetch:

* cache hit (lines 214-228): `cache_hits += 1`, callback with the cached
  data, `completed += 1`; no token is taken and no fetch is made;
* cache miss: `wait_for_token(1)` (line 231, consuming one rate token),
  then the fetch; on success (lines 235-303) `api_calls += 1`, the record
  is cached, the callback is invoked with it and `completed += 1`; on an
  exception (lines 305-328), if `retry_count < max_retries` and the
  message matches (line 309) then `retry_count += 1`, `retries += 1`,
  sleep `retry_delay * retry_count`, and the task is re-pushed; otherwise
  `failed += 1` and the callback is invoked with `None`. -/
def processAttempt {μ : Type} (max_retries : ℕ) (retry_delay : ℚ) (t : Task μ)
    (cached : Option Record) (fetch : FetchResult) : AttemptEffects μ :=
  match cached with
  | some data =>
    { delta := { PoolStats.zero with cache_hits := 1, completed := 1 }
      tokenConsumed := false
      fetchCalled := false
      cachePut := none
      callbackCalls := if t.hasCallback then [(t.release_id, some data, t.metadata)] else []
      sleepSeconds := none
      repush := none }
  | none =>
    match fetch with
    | .success r =>
      { delta := { PoolStats.zero with completed := 1, api_calls := 1 }
        tokenConsumed := true
        fetchCalled := true
        cachePut := some (t.release_id, r)
        callbackCalls := if t.hasCallback then [(t.release_id, some r, t.metadata)] else []
        sleepSeconds := none
        repush := none }
    | .failure e =>
      if t.retry_count < max_retries ∧ retryableMsg e.msg = true then
        { delta := { PoolStats.zero with retries := 1 }
          tokenConsumed := true
          fetchCalled := true
          cachePut := none
          callbackCalls := []
          sleepSeconds := some (retry_delay * ((t.retry_count : ℚ) + 1))
          repush := some { t with retry_count := t.retry_count + 1 } }
      else
        { delta := { PoolStats.zero with failed := 1 }
          tokenConsumed := true
          fetchCalled := true
          cachePut := none
          callbackCalls := if t.hasCallback then [(t.release_id, none, t.metadata)] else []
          sleepSeconds := none
          repush := none }

/-- `PriorityQueue.get`: remove a task of minimal `priority` (the
`dataclass(order=True)` comparison uses only `priority`; among equal
priorities the heap gives no defined order, and this model takes the
first minimal element). -/
def popMin {μ : Type} : List (Task μ) → Option (Task μ × List (Task μ))
  | [] => none
  | t :: rest =>
    match popMin rest with
    | none => some (t, [])
    | some (u, rest2) =>
      if t.priority ≤ u.priority then some (t, rest) else some (u, t :: rest2)

/-- A single worker draining the queue to emptiness (the
`stop(wait=True)` drain of one worker, fuel-indexed): repeatedly pop a
minimal-priority task, run the loop body on it via `processAttempt` with
the cache and fetch environments `cacheF` and `fetchF`, accumulate the
statistics and the callback invocations, and re-insert any re-pushed
task.  Returns `none` on fuel exhaustion with a non-empty queue. -/
def runQueue {μ : Type} (fuel : ℕ) (max_retries : ℕ) (retry_delay : ℚ)
    (cacheF : Task μ → Option Record) (fetchF : Task μ → FetchResult)
    (q : List (Task μ)) (stats : PoolStats)
    (calls : List (ℤ × Option Record × μ)) :
    Option (PoolStats × List (ℤ × Option Record × μ)) :=
  match fuel with
  | 0 =>
    match popMin q with
    | none => some (stats, calls)
    | some _ => none
  | Nat.succ fuel =>
    match popMin q with
    | none => some (stats, calls)
    | some (t, rest) =>
      let eff := processAttempt max_retries retry_delay t (cacheF t) (fetchF t)
      runQueue fuel max_retries retry_delay cacheF fetchF
        (rest ++ eff.repush.toList) (stats.add eff.delta) (calls ++ eff.callbackCalls)

/-- Atomic actions of the interleaved execution of `add_task` and of the
worker loops, as they affect the queue and the statistics:

* `putTask`: the `self.task_queue.put(task)` of `add_task` (line 182);
* `countTask`: the `self.stats['total_tasks'] += 1` of the same
  `add_task` call (lines 184-185), which happens strictly after its put;
* `popTask`: a worker dequeues a task (line 206);
* `finishCompleted`: a worker reaches `self.stats['completed'] += 1`
  (line 225 or 303) and `task_done` for its dequeued task;
* `finishFailed`: a worker reaches `self.stats['failed'] += 1`
  (line 324) and `task_done`;
* `repushTask`: a worker re-pushes its dequeued task after a retryable
  error (lines 309-319), incrementing `retries`, and calls `task_done`. -/
inductive PoolEvent where
  | putTask
  | countTask
  | popTask
  | finishCompleted
  | finishFailed
  | repushTask
deriving DecidableEq

/-- Abstract state of the interleaving: number of tasks sitting in the
queue, number of `add_task` calls that have done their put but not yet
their `total_tasks` increment, number of dequeued tasks being processed,
and the shared statistics block. -/
structure PoolLtsState where
  queued : ℕ
  uncounted : ℕ
  inflight : ℕ
  stats : PoolStats
deriving DecidableEq

/-- Transition function of the interleaved execution; `none` means the
event is not enabled in the given state. -/
def poolStep (s : PoolLtsState) : PoolEvent → Option PoolLtsState
  | .putTask =>
    some { s with queued := s.queued + 1, uncounted := s.uncounted + 1 }
  | .countTask =>
    if s.uncounted = 0 then none
    else some { s with uncounted := s.uncounted - 1,
                       stats := { s.stats with total_tasks := s.stats.total_tasks + 1 } }
  | .popTask =>
    if s.queued = 0 then none
    else some { s with queued := s.queued - 1, inflight := s.inflight + 1 }
  | .finishCompleted =>
    if s.inflight = 0 then none
    else some { s with inflight := s.inflight - 1,
                       stats := { s.stats with completed := s.stats.completed + 1 } }
  | .finishFailed =>
    if s.inflight = 0 then none
    else some { s with inflight := s.inflight - 1,
                       stats := { s.stats with failed := s.stats.failed + 1 } }
  | .repushTask =>
    if s.inflight = 0 then none
    else some { s with inflight := s.inflight - 1, queued := s.queued + 1,
                       stats := { s.stats with retries := s.stats.retries + 1 } }

/-- Run a sequence of interleaving events from a state. -/
def poolRun (s : PoolLtsState) : List PoolEvent → Option PoolLtsState
  | [] => some s
  | e :: es =>
    match poolStep s e with
    | none => none
    | some s2 => poolRun s2 es

/-- The state of a freshly constructed pool: empty queue, no in-flight
work, all counters zero. -/
def poolInit : PoolLtsState := ⟨0, 0, 0, PoolStats.zero⟩

/-! Helper lemmas about `_refill` and `consume`. -/

lemma refill_capacity (b : TokenBucket) (now : ℚ) :
    (b._refill now).capacity = b.capacity := by
  simp only [TokenBucket._refill]
  split <;> rfl

lemma refill_rate_eq (b : TokenBucket) (now : ℚ) :
    (b._refill now).refill_rate = b.refill_rate := by
  simp only [TokenBucket._refill]
  split <;> rfl

lemma refill_tokens_le (b : TokenBucket) (now : ℚ) (h : b.tokens ≤ b.capacity) :
    (b._refill now).tokens ≤ b.capacity := by
  simp only [TokenBucket._refill]
  split
  · exact min_le_left _ _
  · exact h

lemma refill_last (b : TokenBucket) (now : ℚ) (hr : 0 < b.refill_rate)
    (hlr : b.last_refill ≤ now) : (b._refill now).last_refill = now := by
  simp only [TokenBucket._refill]
  split
  · rfl
  · rename_i h
    have h0 : (now - b.last_refill) * b.refill_rate = 0 := by
      have hge : 0 ≤ (now - b.last_refill) * b.refill_rate :=
        mul_nonneg (by linarith) (le_of_lt hr)
      linarith [not_lt.mp h]
    have : now - b.last_refill = 0 := by
      rcases mul_eq_zero.mp h0 with h1 | h2
      · exact h1
      · exact absurd h2 (ne_of_gt hr)
    linarith

lemma refill_self (b : TokenBucket) (now : ℚ) (h : b.last_refill = now) :
    b._refill now = b := by
  simp only [TokenBucket._refill, h, sub_self, zero_mul]
  norm_num

lemma consume_failed_bucket (b : TokenBucket) (n now : ℚ)
    (h : (b.consume n now).1 = false) : (b.consume n now).2 = b._refill now := by
  simp only [TokenBucket.consume] at h ⊢
  split at h
  · simp at h
  · rename_i hcond
    rw [if_neg hcond]

lemma consume_failed_tokens (b : TokenBucket) (n now : ℚ)
    (h : (b.consume n now).1 = false) : (b._refill now).tokens < n := by
  simp only [TokenBucket.consume] at h
  split at h
  · simp at h
  · rename_i hcond
    exact lt_of_not_le hcond

/-- If the bucket was refilled exactly at `now` with `tokens < n`, then a
`consume n` performed `(n - tokens) / refill_rate` seconds later succeeds
(provided `n ≤ capacity`): the lazy refill accrues exactly the missing
tokens. -/
lemma consume_succeeds_after_wait (b : TokenBucket) (n now w : ℚ)
    (hr : 0 < b.refill_rate) (hlr : b.last_refill = now)
    (hw : w = (n - b.tokens) / b.refill_rate) (hwpos : 0 < w)
    (hcap : n ≤ b.capacity) :
    (b.consume n (now + w)).1 = true := by
  have hrefill : (b._refill (now + w)).tokens = n := by
    simp only [TokenBucket._refill, hlr]
    have helapsed : now + w - now = w := by ring
    rw [helapsed]
    have hadd : w * b.refill_rate = n - b.tokens := by
      rw [hw, div_mul_cancel₀]
      exact ne_of_gt hr
    rw [if_pos (by rw [hadd]; nlinarith [mul_pos hwpos hr])]
    simp only [hadd]
    have : b.tokens + (n - b.tokens) = n := by ring
    rw [this, min_eq_right hcap]
  simp only [TokenBucket.consume, hrefill, le_refl, if_true]

/-- C2.  `tryConsume` semantics of `TokenBucket.consume` (lines 46-72):
at a call made when the wall clock reads `now`, the token count is first
set to `min(capacity, tokens + elapsed * refill_rate)`; the call returns
`True` and decrements the count by `n` iff the refilled count is at least
`n`, and otherwise returns `False` leaving the count at the refilled
value.  Consequently, with `capacity = 2` and `refill_rate = 1`, two
immediate `consume 1` calls succeed, a third immediate call fails, and a
`consume 1` call one second later succeeds again. -/
theorem c2_consume_semantics :
    (∀ (b : TokenBucket) (n now : ℚ),
      b.tokens ≤ b.capacity → b.last_refill ≤ now → 0 ≤ b.refill_rate →
      ((b.consume n now).1 =
          decide (n ≤ min b.capacity (b.tokens + (now - b.last_refill) * b.refill_rate)) ∧
        ((b.consume n now).2).tokens =
          (if n ≤ min b.capacity (b.tokens + (now - b.last_refill) * b.refill_rate) then
            min b.capacity (b.tokens + (now - b.last_refill) * b.refill_rate) - n
          else
            min b.capacity (b.tokens + (now - b.last_refill) * b.refill_rate)))) ∧
    (((TokenBucket.make 2 1 0).consume 1 0).1 = true ∧
      (((TokenBucket.make 2 1 0).consume 1 0).2.consume 1 0).1 = true ∧
      ((((TokenBucket.make 2 1 0).consume 1 0).2.consume 1 0).2.consume 1 0).1 = false ∧
      (((((TokenBucket.make 2 1 0).consume 1 0).2.consume 1 0).2.consume 1 0).2.consume 1 1).1
        = true) := by
  constructor
  · intro b n now htok hlr hrate
    have hadd : 0 ≤ (now - b.last_refill) * b.refill_rate :=
      mul_nonneg (by linarith) hrate
    simp only [TokenBucket.consume, TokenBucket._refill]
    by_cases h : 0 < (now - b.last_refill) * b.refill_rate
    · rw [if_pos h]
      by_cases hn : n ≤ min b.capacity (b.tokens + (now - b.last_refill) * b.refill_rate)
      · simp [hn]
      · simp [hn]
    · have h0 : (now - b.last_refill) * b.refill_rate = 0 :=
        le_antisymm (not_lt.mp h) hadd
      rw [if_neg h]
      have hm : min b.capacity (b.tokens + (now - b.last_refill) * b.refill_rate)
          = b.tokens := by
        rw [h0, add_zero, min_eq_right htok]
      rw [hm]
      by_cases hn : n ≤ b.tokens
      · simp [hn]
      · simp [hn]
  · norm_num [TokenBucket.make, TokenBucket.consume, TokenBucket._refill]

/-- C2 witness: the semantics instantiated at the bucket
`capacity = 2, refill_rate = 1` freshly created at time 0, consuming one
token immediately. -/
theorem c2_consume_semantics_witness :
    ((TokenBucket.make 2 1 0).consume 1 0).1 =
      decide ((1 : ℚ) ≤ min (TokenBucket.make 2 1 0).capacity
        ((TokenBucket.make 2 1 0).tokens +
          ((0 : ℚ) - (TokenBucket.make 2 1 0).last_refill) *
            (TokenBucket.make 2 1 0).refill_rate)) ∧
    (((TokenBucket.make 2 1 0).consume 1 0).2).tokens =
      (if (1 : ℚ) ≤ min (TokenBucket.make 2 1 0).capacity
          ((TokenBucket.make 2 1 0).tokens +
            ((0 : ℚ) - (TokenBucket.make 2 1 0).last_refill) *
              (TokenBucket.make 2 1 0).refill_rate) then
        min (TokenBucket.make 2 1 0).capacity
          ((TokenBucket.make 2 1 0).tokens +
            ((0 : ℚ) - (TokenBucket.make 2 1 0).last_refill) *
              (TokenBucket.make 2 1 0).refill_rate) - 1
      else
        min (TokenBucket.make 2 1 0).capacity
          ((TokenBucket.make 2 1 0).tokens +
            ((0 : ℚ) - (TokenBucket.make 2 1 0).last_refill) *
              (TokenBucket.make 2 1 0).refill_rate)) :=
  c2_consume_semantics.1 (TokenBucket.make 2 1 0) 1 0
    (by norm_num [TokenBucket.make]) (by norm_num [TokenBucket.make])
    (by norm_num [TokenBucket.make])

lemma consume_stays_bounded (b : TokenBucket) (n now : ℚ)
    (h0 : 0 ≤ b.tokens) (h1 : b.tokens ≤ b.capacity) (hn : 0 ≤ n) :
    0 ≤ ((b.consume n now).2).tokens ∧
      ((b.consume n now).2).tokens ≤ b.capacity := by
  have hcap : 0 ≤ b.capacity := le_trans h0 h1
  have hrefill0 : 0 ≤ (b._refill now).tokens := by
    simp only [TokenBucket._refill]
    split
    · rename_i h
      exact le_min hcap (by linarith)
    · exact h0
  have hrefill1 : (b._refill now).tokens ≤ b.capacity := refill_tokens_le b now h1
  simp only [TokenBucket.consume]
  split
  · rename_i hc
    constructor
    · simp only []
      linarith
    · simp only []
      linarith
  · exact ⟨hrefill0, hrefill1⟩

lemma runCalls_bounded : ∀ (calls : List (ℚ × ℚ)) (b : TokenBucket) (now : ℚ),
    0 ≤ b.tokens → b.tokens ≤ b.capacity → (∀ p ∈ calls, 0 ≤ p.2) →
    (0 ≤ (TokenBucket.runCalls b now calls).tokens ∧
      (TokenBucket.runCalls b now calls).tokens ≤ (TokenBucket.runCalls b now calls).capacity ∧
      (TokenBucket.runCalls b now calls).capacity = b.capacity)
  | [], b, now, h0, h1, _ => ⟨h0, h1, rfl⟩
  | (d, n) :: rest, b, now, h0, h1, hn => by
    have hstep := consume_stays_bounded b n (now + d) h0 h1 (hn (d, n) (by simp))
    have hcap : ((b.consume n (now + d)).2).capacity = b.capacity := by
      simp only [TokenBucket.consume]
      split <;> simp [refill_capacity]
    have hrec := runCalls_bounded rest ((b.consume n (now + d)).2) (now + d)
      hstep.1 (by rw [hcap]; exact hstep.2)
      (fun p hp => hn p (by simp [hp]))
    simp only [TokenBucket.runCalls]
    exact ⟨hrec.1, hrec.2.1, by rw [hrec.2.2, hcap]⟩

/-- C3.  Token bound invariant: a `TokenBucket` created with capacity
`c ≥ 0` and refill rate `r ≥ 0`, subjected to any finite sequence of
`consume` calls with non-negative token counts at non-decreasing times
(each list entry is a delay from the previous call together with the
requested token count), always observes `0 ≤ tokens ≤ c`: the count
never goes negative and lazy refilling never accrues tokens beyond the
capacity. -/
theorem c3_token_bound (c r t0 : ℚ) (calls : List (ℚ × ℚ))
    (hc : 0 ≤ c) (hr : 0 ≤ r)
    (hd : ∀ p ∈ calls, 0 ≤ p.1) (hn : ∀ p ∈ calls, 0 ≤ p.2) :
    0 ≤ (TokenBucket.runCalls (TokenBucket.make c r t0) t0 calls).tokens ∧
      (TokenBucket.runCalls (TokenBucket.make c r t0) t0 calls).tokens ≤ c := by
  have h := runCalls_bounded calls (TokenBucket.make c r t0) t0 hc (le_refl c) hn
  exact ⟨h.1, le_of_le_of_eq h.2.1
    (h.2.2.trans (rfl : (TokenBucket.make c r t0).capacity = c))⟩

/-- C3 witness: the bound instantiated at capacity 2, rate 1, with the
four-call sequence of the concrete scenario. -/
theorem c3_token_bound_witness :
    0 ≤ (TokenBucket.runCalls (TokenBucket.make 2 1 0) 0
        [(0, 1), (0, 1), (0, 1), (1, 1)]).tokens ∧
      (TokenBucket.runCalls (TokenBucket.make 2 1 0) 0
        [(0, 1), (0, 1), (0, 1), (1, 1)]).tokens ≤ 2 :=
  c3_token_bound 2 1 0 [(0, 1), (0, 1), (0, 1), (1, 1)]
    (by norm_num) (by norm_num)
    (by intro p hp; fin_cases hp <;> norm_num)
    (by intro p hp; fin_cases hp <;> norm_num)

/-- A concrete record used to instantiate witnesses. -/
def sampleRecord : Record :=
  ⟨"Some Title", "Some Artist", "Some Label", "CAT1", "FR", "1999", "House", "Deep", "9.99", "u"⟩

/-- C4.  Cache-hit short-circuit (worker loop lines 210-228): when
`get_cached_release` yields a record, the worker invokes the callback
with that record, increments `cache_hits` and `completed` and nothing
else, never invokes the remote fetcher for that task, and leaves the
token bucket untouched (no token consumed). -/
theorem c4_cache_hit_short_circuit (μ : Type) (max_retries : ℕ) (retry_delay : ℚ)
    (t : Task μ) (env : CacheResult) (r : Record) (f : FetchResult)
    (henv : get_cached_release env = some r) (hcb : t.hasCallback = true) :
    (processAttempt max_retries retry_delay t (get_cached_release env) f).fetchCalled = false ∧
    (processAttempt max_retries retry_delay t (get_cached_release env) f).tokenConsumed = false ∧
    (processAttempt max_retries retry_delay t (get_cached_release env) f).delta =
      { PoolStats.zero with cache_hits := 1, completed := 1 } ∧
    (processAttempt max_retries retry_delay t (get_cached_release env) f).callbackCalls =
      [(t.release_id, some r, t.metadata)] ∧
    (processAttempt max_retries retry_delay t (get_cached_release env) f).repush = none := by
  rw [henv]
  simp [processAttempt, hcb]

/-- C4 witness: a cache row 10 days old short-circuits a task with a
callback. -/
theorem c4_cache_hit_short_circuit_witness :
    (processAttempt 2 10 (⟨5, 1, true, 0, (0 : ℕ)⟩ : Task ℕ)
        (get_cached_release (CacheResult.found sampleRecord 10))
        (FetchResult.success sampleRecord)).fetchCalled = false ∧
    (processAttempt 2 10 (⟨5, 1, true, 0, (0 : ℕ)⟩ : Task ℕ)
        (get_cached_release (CacheResult.found sampleRecord 10))
        (FetchResult.success sampleRecord)).tokenConsumed = false ∧
    (processAttempt 2 10 (⟨5, 1, true, 0, (0 : ℕ)⟩ : Task ℕ)
        (get_cached_release (CacheResult.found sampleRecord 10))
        (FetchResult.success sampleRecord)).delta =
      { PoolStats.zero with cache_hits := 1, completed := 1 } ∧
    (processAttempt 2 10 (⟨5, 1, true, 0, (0 : ℕ)⟩ : Task ℕ)
        (get_cached_release (CacheResult.found sampleRecord 10))
        (FetchResult.success sampleRecord)).callbackCalls =
      [((1 : ℤ), some sampleRecord, (0 : ℕ))] ∧
    (processAttempt 2 10 (⟨5, 1, true, 0, (0 : ℕ)⟩ : Task ℕ)
        (get_cached_release (CacheResult.found sampleRecord 10))
        (FetchResult.success sampleRecord)).repush = none :=
  c4_cache_hit_short_circuit ℕ 2 10 ⟨5, 1, true, 0, 0⟩
    (CacheResult.found sampleRecord 10) sampleRecord (FetchResult.success sampleRecord)
    (by norm_num [get_cached_release]) rfl

/-- C5 counterexample: the claim that retry eligibility is a function of
the typed error kind alone is false for the code.  Two fetch errors of
the same kind (`rateLimited`) with different message strings, hitting
the same fresh task under `max_retries = 2`, receive opposite decisions:
the message containing `'429'` is re-pushed for retry while the message
`"rate"` is a terminal failure — line 309 decides by substring matching
on `str(e)`, not by a typed error value. -/
theorem c5_retry_typed_counterexample :
    ((processAttempt 2 10 (⟨5, 1, true, 0, (0 : ℕ)⟩ : Task ℕ) none
        (FetchResult.failure ⟨ErrorKind.rateLimited, msg429⟩)).repush).isSome = true ∧
    (processAttempt 2 10 (⟨5, 1, true, 0, (0 : ℕ)⟩ : Task ℕ) none
        (FetchResult.failure ⟨ErrorKind.rateLimited, ['r', 'a', 't', 'e']⟩)).delta.failed
      = 1 := by
  decide

/-- C5 amended: retry eligibility is a function of the attempt count and
of the error's message text alone (substring matching for `'429'` or
`'Expecting value'`, line 309), so any two fetch errors with the same
message — whatever their kinds — produce identical worker behaviour;
errors of the same kind with different messages may be decided
differently. -/
theorem c5_retry_decided_by_message (μ : Type) (max_retries : ℕ) (retry_delay : ℚ)
    (t : Task μ) (e1 e2 : FetchError) (hmsg : e1.msg = e2.msg) :
    processAttempt max_retries retry_delay t none (FetchResult.failure e1) =
      processAttempt max_retries retry_delay t none (FetchResult.failure e2) := by
  cases e1 with
  | mk k1 m1 =>
    cases e2 with
    | mk k2 m2 =>
      simp only at hmsg
      subst hmsg
      rfl

/-- C5 witness: a `rateLimited` and a `permanent` error carrying the
same `'429'` message are processed identically. -/
theorem c5_retry_decided_by_message_witness :
    processAttempt 2 10 (⟨5, 1, true, 0, (0 : ℕ)⟩ : Task ℕ) none
        (FetchResult.failure ⟨ErrorKind.rateLimited, msg429⟩) =
      processAttempt 2 10 (⟨5, 1, true, 0, (0 : ℕ)⟩ : Task ℕ) none
        (FetchResult.failure ⟨ErrorKind.permanent, msg429⟩) :=
  c5_retry_decided_by_message ℕ 2 10 ⟨5, 1, true, 0, 0⟩
    ⟨ErrorKind.rateLimited, msg429⟩ ⟨ErrorKind.permanent, msg429⟩ rfl

/-- C6.  Linear backoff and re-push (lines 305-319): a retryable fetch
error on a task with `retry_count < max_retries` increments the task's
attempt count to `k = retry_count + 1`, sleeps `retry_delay * k` seconds
(linear in the attempt count), re-pushes the very same task — same
priority, identifier, callback and metadata, only the attempt count
changed — and increments the `retries` counter once, touching no other
counter and firing no callback. -/
theorem c6_linear_backoff (μ : Type) (max_retries : ℕ) (retry_delay : ℚ)
    (t : Task μ) (e : FetchError)
    (hrc : t.retry_count < max_retries) (hre : retryableMsg e.msg = true) :
    (processAttempt max_retries retry_delay t none (FetchResult.failure e)).repush =
      some { t with retry_count := t.retry_count + 1 } ∧
    (processAttempt max_retries retry_delay t none (FetchResult.failure e)).sleepSeconds =
      some (retry_delay * ((t.retry_count : ℚ) + 1)) ∧
    (processAttempt max_retries retry_delay t none (FetchResult.failure e)).delta =
      { PoolStats.zero with retries := 1 } ∧
    (processAttempt max_retries retry_delay t none (FetchResult.failure e)).callbackCalls
      = [] := by
  simp [processAttempt, if_pos (And.intro hrc hre)]

/-- C6 witness: the backoff behaviour at a first retry with
`retry_delay = 10` and a `'429'` message. -/
theorem c6_linear_backoff_witness :
    (processAttempt 2 10 (⟨5, 1, true, 0, (0 : ℕ)⟩ : Task ℕ) none
        (FetchResult.failure ⟨ErrorKind.rateLimited, msg429⟩)).repush =
      some { (⟨5, 1, true, 0, (0 : ℕ)⟩ : Task ℕ) with retry_count := 0 + 1 } ∧
    (processAttempt 2 10 (⟨5, 1, true, 0, (0 : ℕ)⟩ : Task ℕ) none
        (FetchResult.failure ⟨ErrorKind.rateLimited, msg429⟩)).sleepSeconds =
      some (10 * (((0 : ℕ) : ℚ) + 1)) ∧
    (processAttempt 2 10 (⟨5, 1, true, 0, (0 : ℕ)⟩ : Task ℕ) none
        (FetchResult.failure ⟨ErrorKind.rateLimited, msg429⟩)).delta =
      { PoolStats.zero with retries := 1 } ∧
    (processAttempt 2 10 (⟨5, 1, true, 0, (0 : ℕ)⟩ : Task ℕ) none
        (FetchResult.failure ⟨ErrorKind.rateLimited, msg429⟩)).callbackCalls = [] :=
  c6_linear_backoff ℕ 2 10 ⟨5, 1, true, 0, 0⟩ ⟨ErrorKind.rateLimited, msg429⟩
    (by decide) (by decide)

/-! Statistics consistency over the interleaving transition system. -/

/-- The conservation invariant of the interleaving: tasks that have
reached a terminal counter, plus tasks being processed, plus tasks in
the queue, equal the counted total plus the `add_task` calls whose
`total_tasks` increment is still pending. -/
def statsInv (s : PoolLtsState) : Prop :=
  s.stats.completed + s.stats.failed + s.inflight + s.queued =
    s.stats.total_tasks + s.uncounted

lemma poolStep_inv (s s2 : PoolLtsState) (e : PoolEvent)
    (h : poolStep s e = some s2) (hinv : statsInv s) : statsInv s2 := by
  unfold statsInv at hinv ⊢
  cases e <;> simp only [poolStep] at h
  · cases h
    simp only []
    omega
  · split at h
    · cases h
    · cases h
      simp only []
      omega
  · split at h
    · cases h
    · cases h
      simp only []
      omega
  · split at h
    · cases h
    · cases h
      simp only []
      omega
  · split at h
    · cases h
    · cases h
      simp only []
      omega
  · split at h
    · cases h
    · cases h
      simp only []
      omega

lemma poolRun_inv : ∀ (tr : List PoolEvent) (s s2 : PoolLtsState),
    poolRun s tr = some s2 → statsInv s → statsInv s2
  | [], s, s2, h, hinv => by
    simp only [poolRun] at h
    cases h
    exact hinv
  | e :: es, s, s2, h, hinv => by
    simp only [poolRun] at h
    cases hstep : poolStep s e with
    | none => rw [hstep] at h; cases h
    | some s1 =>
      rw [hstep] at h
      exact poolRun_inv es s1 s2 h (poolStep_inv s s1 e hstep hinv)

/-- C1 counterexample: the claimed inequality
`completed + failed ≤ total_tasks` does not hold at every observation
point.  `add_task` inserts into the queue (line 182) before incrementing
`total_tasks` (lines 184-185), so a worker can pop the task and complete
it in between: after the interleaving put-then-pop-then-complete, a
snapshot of the statistics shows `completed + failed = 1` while
`total_tasks = 0`. -/
theorem c1_stats_counterexample :
    (poolRun poolInit [PoolEvent.putTask, PoolEvent.popTask, PoolEvent.finishCompleted]).map
        (fun s => decide (s.stats.completed + s.stats.failed ≤ s.stats.total_tasks)) =
      some false := by
  decide

/-- C1 amended: in every reachable interleaving state,
`completed + failed + inflight + queued = total_tasks + uncounted` — so
`completed + failed` is bounded by the number of `add_task` queue
inserts performed (`total_tasks + uncounted`), though it can momentarily
exceed the `total_tasks` statistic itself, since `add_task` inserts into
the queue before incrementing the counter.  Once draining is complete
(empty queue, no in-flight task, every `add_task` call finished),
`completed + failed = total_tasks` exactly.  Moreover each pass of the
worker loop body over a dequeued task either increments exactly one of
`completed`/`failed` and re-pushes nothing, or increments neither and
re-pushes the task — no task is consumed without eventually reaching
exactly one of the two terminal counters. -/
theorem c1_stats_consistency (tr : List PoolEvent) (s : PoolLtsState)
    (h : poolRun poolInit tr = some s) :
    (s.stats.completed + s.stats.failed + s.inflight + s.queued =
      s.stats.total_tasks + s.uncounted) ∧
    (s.queued = 0 → s.inflight = 0 → s.uncounted = 0 →
      s.stats.completed + s.stats.failed = s.stats.total_tasks) ∧
    (∀ (μ : Type) (max_retries : ℕ) (retry_delay : ℚ) (t : Task μ)
        (cached : Option Record) (f : FetchResult),
      ((processAttempt max_retries retry_delay t cached f).delta.completed +
          (processAttempt max_retries retry_delay t cached f).delta.failed = 1 ∧
        (processAttempt max_retries retry_delay t cached f).repush = none) ∨
      ((processAttempt max_retries retry_delay t cached f).delta.completed = 0 ∧
        (processAttempt max_retries retry_delay t cached f).delta.failed = 0 ∧
        ((processAttempt max_retries retry_delay t cached f).repush).isSome = true)) := by
  have hinv : statsInv s := poolRun_inv tr poolInit s h (by unfold statsInv poolInit; rfl)
  unfold statsInv at hinv
  refine ⟨hinv, ?_, ?_⟩
  · intro hq hi hu
    rw [hq, hi, hu] at hinv
    omega
  · intro μ mr rd t cached f
    cases cached with
    | some data => left; exact ⟨rfl, rfl⟩
    | none =>
      cases f with
      | success r => left; exact ⟨rfl, rfl⟩
      | failure e =>
        by_cases hcond : t.retry_count < mr ∧ retryableMsg e.msg = true
        · right
          simp [processAttempt, if_pos hcond, PoolStats.zero]
        · left
          simp [processAttempt, if_neg hcond, PoolStats.zero]

/-- C1 witness: the conservation law at the drained end state of the
trace put, count, pop, fail. -/
theorem c1_stats_consistency_witness :
    ((⟨0, 0, 0, ⟨1, 0, 1, 0, 0, 0⟩⟩ : PoolLtsState).stats.completed +
        (⟨0, 0, 0, ⟨1, 0, 1, 0, 0, 0⟩⟩ : PoolLtsState).stats.failed +
        (⟨0, 0, 0, ⟨1, 0, 1, 0, 0, 0⟩⟩ : PoolLtsState).inflight +
        (⟨0, 0, 0, ⟨1, 0, 1, 0, 0, 0⟩⟩ : PoolLtsState).queued =
      (⟨0, 0, 0, ⟨1, 0, 1, 0, 0, 0⟩⟩ : PoolLtsState).stats.total_tasks +
        (⟨0, 0, 0, ⟨1, 0, 1, 0, 0, 0⟩⟩ : PoolLtsState).uncounted) ∧
    ((⟨0, 0, 0, ⟨1, 0, 1, 0, 0, 0⟩⟩ : PoolLtsState).queued = 0 →
      (⟨0, 0, 0, ⟨1, 0, 1, 0, 0, 0⟩⟩ : PoolLtsState).inflight = 0 →
      (⟨0, 0, 0, ⟨1, 0, 1, 0, 0, 0⟩⟩ : PoolLtsState).uncounted = 0 →
      (⟨0, 0, 0, ⟨1, 0, 1, 0, 0, 0⟩⟩ : PoolLtsState).stats.completed +
          (⟨0, 0, 0, ⟨1, 0, 1, 0, 0, 0⟩⟩ : PoolLtsState).stats.failed =
        (⟨0, 0, 0, ⟨1, 0, 1, 0, 0, 0⟩⟩ : PoolLtsState).stats.total_tasks) ∧
    (∀ (μ : Type) (max_retries : ℕ) (retry_delay : ℚ) (t : Task μ)
        (cached : Option Record) (f : FetchResult),
      ((processAttempt max_retries retry_delay t cached f).delta.completed +
          (processAttempt max_retries retry_delay t cached f).delta.failed = 1 ∧
        (processAttempt max_retries retry_delay t cached f).repush = none) ∨
      ((processAttempt max_retries retry_delay t cached f).delta.completed = 0 ∧
        (processAttempt max_retries retry_delay t cached f).delta.failed = 0 ∧
        ((processAttempt max_retries retry_delay t cached f).repush).isSome = true)) :=
  c1_stats_consistency
    [PoolEvent.putTask, PoolEvent.countTask, PoolEvent.popTask, PoolEvent.finishFailed]
    ⟨0, 0, 0, ⟨1, 0, 1, 0, 0, 0⟩⟩ (by decide)

/-- C7.  Retry exhaustion: a single worker with `max_retries = 2`
processing one task whose remote fetch raises a rate-limited (`'429'`)
error on every attempt, with the cache always missing, invokes exactly
one failure callback for the task and ends with
`retries = 2, failed = 1, completed = 0` (and no cache hit or completed
API call recorded). -/
theorem c7_retry_exhaustion (μ : Type) (m : μ) (retry_delay : ℚ) (msg : List Char)
    (hmsg : retryableMsg msg = true) :
    runQueue 5 2 retry_delay (fun _ => none)
        (fun _ => FetchResult.failure ⟨ErrorKind.rateLimited, msg⟩)
        [⟨5, 1, true, 0, m⟩] PoolStats.zero [] =
      some (⟨0, 0, 1, 0, 0, 2⟩, [(1, none, m)]) := by
  simp [runQueue, popMin, processAttempt, hmsg, PoolStats.add, PoolStats.zero]

/-- C7 witness: the exhaustion run at the concrete `'429'` message. -/
theorem c7_retry_exhaustion_witness :
    runQueue 5 2 10 (fun _ => none)
        (fun _ => FetchResult.failure ⟨ErrorKind.rateLimited, msg429⟩)
        [(⟨5, 1, true, 0, (0 : ℕ)⟩ : Task ℕ)] PoolStats.zero [] =
      some (⟨0, 0, 1, 0, 0, 2⟩, [(1, none, 0)]) :=
  c7_retry_exhaustion ℕ 0 10 msg429 (by decide)

lemma runQueue_empty {μ : Type} (fuel max_retries : ℕ) (retry_delay : ℚ)
    (cacheF : Task μ → Option Record) (fetchF : Task μ → FetchResult)
    (stats : PoolStats) (calls : List (ℤ × Option Record × μ)) :
    runQueue fuel max_retries retry_delay cacheF fetchF [] stats calls =
      some (stats, calls) := by
  cases fuel <;> rfl

/-- With the cache always missing, a single task always drains to a
terminal outcome within `max_retries - retry_count + 2` loop passes,
whatever the fetch outcomes: exactly one of `completed`/`failed` is
incremented for it, and exactly one callback fires when the task has
one. -/
lemma single_task_drains {μ : Type} (max_retries : ℕ) (retry_delay : ℚ)
    (fetchF : Task μ → FetchResult) :
    ∀ (fuel : ℕ) (t : Task μ) (stats : PoolStats)
      (calls : List (ℤ × Option Record × μ)),
      max_retries - t.retry_count + 2 ≤ fuel →
      ∃ st cs,
        runQueue fuel max_retries retry_delay (fun _ => none) fetchF [t] stats calls =
          some (st, cs) ∧
        st.completed + st.failed = stats.completed + stats.failed + 1 ∧
        cs.length = calls.length + (if t.hasCallback then 1 else 0) := by
  intro fuel
  induction fuel using Nat.strong_induction_on with
  | _ fuel ih =>
    intro t stats calls hfuel
    match fuel, hfuel with
    | Nat.succ f, hfuel =>
      have hpop : popMin [t] = some (t, ([] : List (Task μ))) := rfl
      cases hf : fetchF t with
      | success r =>
        simp only [runQueue, hpop, hf, processAttempt, Option.toList,
          List.nil_append]
        rw [runQueue_empty]
        refine ⟨_, _, rfl, ?_, ?_⟩
        · simp only [PoolStats.add, PoolStats.zero]
          omega
        · cases hcb : t.hasCallback <;> simp [hcb]
      | failure e =>
        by_cases hcond : t.retry_count < max_retries ∧ retryableMsg e.msg = true
        · simp only [runQueue, hpop, hf, processAttempt, if_pos hcond,
            Option.toList, List.nil_append, List.append_nil]
          have hrc2 : ({ t with retry_count := t.retry_count + 1 } : Task μ).retry_count
              = t.retry_count + 1 := rfl
          obtain ⟨st, cs, hrun, hsum, hlen⟩ := ih f (by omega)
            { t with retry_count := t.retry_count + 1 }
            (stats.add { PoolStats.zero with retries := 1 }) calls
            (by rw [hrc2]; have := hcond.1; omega)
          refine ⟨st, cs, hrun, ?_, ?_⟩
          · rw [hsum]
            simp only [PoolStats.add, PoolStats.zero]
            omega
          · rw [hlen]
        · simp only [runQueue, hpop, hf, processAttempt, if_neg hcond,
            Option.toList, List.nil_append]
          rw [runQueue_empty]
          refine ⟨_, _, rfl, ?_, ?_⟩
          · simp only [PoolStats.add, PoolStats.zero]
            omega
          · cases hcb : t.hasCallback <;> simp [hcb]

/-- C8.  A cache error is non-fatal and equivalent to a miss:
`get_cached_release` turns a raised `Exception` into `None` (database.py
lines 146-148), so the worker's behaviour on a task whose cache lookup
errors is identical to its behaviour on a cache miss — it consumes a
rate token, invokes the remote fetch, and (whatever the fetch outcomes
across retries) the task drains to a terminal outcome, incrementing
exactly one of `completed`/`failed`. -/
theorem c8_cache_error_is_miss (μ : Type) (max_retries : ℕ) (retry_delay : ℚ)
    (t : Task μ) (f : FetchResult) (fetchF : Task μ → FetchResult) (fuel : ℕ)
    (hfuel : max_retries - t.retry_count + 2 ≤ fuel) :
    get_cached_release CacheResult.dbError = get_cached_release CacheResult.absent ∧
    processAttempt max_retries retry_delay t (get_cached_release CacheResult.dbError) f =
      processAttempt max_retries retry_delay t (get_cached_release CacheResult.absent) f ∧
    (processAttempt max_retries retry_delay t
      (get_cached_release CacheResult.dbError) f).tokenConsumed = true ∧
    (processAttempt max_retries retry_delay t
      (get_cached_release CacheResult.dbError) f).fetchCalled = true ∧
    (∃ st cs,
      runQueue fuel max_retries retry_delay
          (fun _ => get_cached_release CacheResult.dbError) fetchF [t] PoolStats.zero [] =
        some (st, cs) ∧ st.completed + st.failed = 1) := by
  refine ⟨rfl, rfl, ?_, ?_, ?_⟩
  · cases f with
    | success r => rfl
    | failure e =>
      by_cases hcond : t.retry_count < max_retries ∧ retryableMsg e.msg = true
      · simp [processAttempt, get_cached_release, if_pos hcond]
      · simp [processAttempt, get_cached_release, if_neg hcond]
  · cases f with
    | success r => rfl
    | failure e =>
      by_cases hcond : t.retry_count < max_retries ∧ retryableMsg e.msg = true
      · simp [processAttempt, get_cached_release, if_pos hcond]
      · simp [processAttempt, get_cached_release, if_neg hcond]
  · obtain ⟨st, cs, hrun, hsum, hlen⟩ :=
      single_task_drains max_retries retry_delay fetchF fuel t PoolStats.zero [] hfuel
    exact ⟨st, cs, hrun, by simpa [PoolStats.zero] using hsum⟩

/-- C8 witness: a cache-erroring task whose fetch always raises a
permanent error still drains to a terminal failure. -/
theorem c8_cache_error_is_miss_witness :
    get_cached_release CacheResult.dbError = get_cached_release CacheResult.absent ∧
    processAttempt 2 10 (⟨5, 1, true, 0, (0 : ℕ)⟩ : Task ℕ)
        (get_cached_release CacheResult.dbError) (FetchResult.success sampleRecord) =
      processAttempt 2 10 (⟨5, 1, true, 0, (0 : ℕ)⟩ : Task ℕ)
        (get_cached_release CacheResult.absent) (FetchResult.success sampleRecord) ∧
    (processAttempt 2 10 (⟨5, 1, true, 0, (0 : ℕ)⟩ : Task ℕ)
      (get_cached_release CacheResult.dbError)
      (FetchResult.success sampleRecord)).tokenConsumed = true ∧
    (processAttempt 2 10 (⟨5, 1, true, 0, (0 : ℕ)⟩ : Task ℕ)
      (get_cached_release CacheResult.dbError)
      (FetchResult.success sampleRecord)).fetchCalled = true ∧
    (∃ st cs,
      runQueue 4 2 10 (fun _ => get_cached_release CacheResult.dbError)
          (fun _ => FetchResult.failure ⟨ErrorKind.permanent, ['b', 'o', 'o', 'm']⟩)
          [(⟨5, 1, true, 0, (0 : ℕ)⟩ : Task ℕ)] PoolStats.zero [] =
        some (st, cs) ∧ st.completed + st.failed = 1) :=
  c8_cache_error_is_miss ℕ 2 10 ⟨5, 1, true, 0, 0⟩ (FetchResult.success sampleRecord)
    (fun _ => FetchResult.failure ⟨ErrorKind.permanent, ['b', 'o', 'o', 'm']⟩) 4
    (by decide)

/-- C10.  Failure-signalling contract of the result callback: every
callback invocation made by the worker loop body has the shape
`callback(release_id, data, metadata)` with the task's own `release_id`
and `metadata` passed through unchanged, where `data` is a record
(`isSome`) exactly on the paths that increment `completed` (cache hit or
successful fetch) and is `None` exactly on the terminal-failure path
that increments `failed` — `None` in the second argument is the only
failure signal the callback ever receives. -/
theorem c10_callback_contract (μ : Type) (max_retries : ℕ) (retry_delay : ℚ)
    (t : Task μ) (cached : Option Record) (f : FetchResult)
    (c : ℤ × Option Record × μ)
    (hc : c ∈ (processAttempt max_retries retry_delay t cached f).callbackCalls) :
    c.1 = t.release_id ∧ c.2.2 = t.metadata ∧
    ((c.2.1).isSome = true ↔
      (processAttempt max_retries retry_delay t cached f).delta.completed = 1) ∧
    (c.2.1 = none ↔
      (processAttempt max_retries retry_delay t cached f).delta.failed = 1) := by
  cases cached with
  | some data =>
    cases hcb : t.hasCallback with
    | false => simp [processAttempt, hcb] at hc
    | true =>
      simp only [processAttempt, hcb, if_true, List.mem_singleton] at hc
      subst hc
      simp [processAttempt, hcb, PoolStats.zero]
  | none =>
    cases f with
    | success r =>
      cases hcb : t.hasCallback with
      | false => simp [processAttempt, hcb] at hc
      | true =>
        simp only [processAttempt, hcb, if_true, List.mem_singleton] at hc
        subst hc
        simp [processAttempt, hcb, PoolStats.zero]
    | failure e =>
      by_cases hcond : t.retry_count < max_retries ∧ retryableMsg e.msg = true
      · simp [processAttempt, if_pos hcond] at hc
      · cases hcb : t.hasCallback with
        | false => simp [processAttempt, if_neg hcond, hcb] at hc
        | true =>
          simp only [processAttempt, if_neg hcond, hcb, if_true,
            List.mem_singleton] at hc
          subst hc
          simp [processAttempt, if_neg hcond, hcb, PoolStats.zero]

/-- C10 witness: the contract at a concrete cache-hit invocation. -/
theorem c10_callback_contract_witness :
    ((1 : ℤ), some sampleRecord, (0 : ℕ)).1 =
        (⟨5, 1, true, 0, (0 : ℕ)⟩ : Task ℕ).release_id ∧
    ((1 : ℤ), some sampleRecord, (0 : ℕ)).2.2 =
        (⟨5, 1, true, 0, (0 : ℕ)⟩ : Task ℕ).metadata ∧
    ((((1 : ℤ), some sampleRecord, (0 : ℕ)).2.1).isSome = true ↔
      (processAttempt 2 10 (⟨5, 1, true, 0, (0 : ℕ)⟩ : Task ℕ) (some sampleRecord)
        (FetchResult.success sampleRecord)).delta.completed = 1) ∧
    (((1 : ℤ), some sampleRecord, (0 : ℕ)).2.1 = none ↔
      (processAttempt 2 10 (⟨5, 1, true, 0, (0 : ℕ)⟩ : Task ℕ) (some sampleRecord)
        (FetchResult.success sampleRecord)).delta.failed = 1) :=
  c10_callback_contract ℕ 2 10 ⟨5, 1, true, 0, 0⟩ (some sampleRecord)
    (FetchResult.success sampleRecord) (1, some sampleRecord, 0) (by decide)

/-! Analysis of `wait_for_token`. -/

/-- C9 counterexample: with a timeout supplied, `wait_for_token` can
raise instead of returning a boolean.  On a bucket with
`refill_rate = 0` (and no token available), the first loop iteration
reaches `wait_time = tokens_needed / self.refill_rate` (line 95) and
raises `ZeroDivisionError`, so the call neither returns `True` nor
`False`. -/
theorem c9_wait_counterexample :
    (TokenBucket.wait_for_token 3 (TokenBucket.make 0 0 0) 1 (some 5) 0).outcome =
      WaitOutcome.zeroDivisionError := by
  norm_num [TokenBucket.wait_for_token, TokenBucket.waitLoop, TokenBucket.consume,
    TokenBucket._refill, TokenBucket.make]

/-- One unfolding of the polling loop when the consume attempt
succeeds. -/
lemma waitLoop_consume_ok (fuel : ℕ) (b : TokenBucket) (n : ℚ) (tmo : Option ℚ)
    (start now : ℚ) (acc : List ℚ) (h : (b.consume n now).1 = true) :
    TokenBucket.waitLoop (Nat.succ fuel) b n tmo start now acc =
      ⟨WaitOutcome.ok true, (b.consume n now).2, now, acc⟩ := by
  simp [TokenBucket.waitLoop, h]

/-- One unfolding of the polling loop when the consume attempt fails and
the (truthy) timeout has elapsed. -/
lemma waitLoop_timed_out (fuel : ℕ) (b : TokenBucket) (n t : ℚ)
    (start now : ℚ) (acc : List ℚ) (hfail : (b.consume n now).1 = false)
    (ht0 : t ≠ 0) (hto : t < now - start) :
    TokenBucket.waitLoop (Nat.succ fuel) b n (some t) start now acc =
      ⟨WaitOutcome.ok false, (b.consume n now).2, now, acc⟩ := by
  simp [TokenBucket.waitLoop, hfail, ht0, hto]

/-- One unfolding of the polling loop when the consume attempt fails,
the timeout has not elapsed, the refill rate is non-zero and the
computed sleep is non-negative: the loop sleeps and polls again. -/
lemma waitLoop_step (fuel : ℕ) (b : TokenBucket) (n t : ℚ)
    (start now : ℚ) (acc : List ℚ) (hfail : (b.consume n now).1 = false)
    (ht0 : t ≠ 0) (hto : ¬ t < now - start)
    (hr0 : ((b.consume n now).2._refill now).refill_rate ≠ 0)
    (hs0 : ¬ min (1/10 : ℚ)
        ((n - ((b.consume n now).2._refill now).tokens) /
          ((b.consume n now).2._refill now).refill_rate) < 0) :
    TokenBucket.waitLoop (Nat.succ fuel) b n (some t) start now acc =
      TokenBucket.waitLoop fuel ((b.consume n now).2._refill now) n (some t) start
        (now + min (1/10 : ℚ)
          ((n - ((b.consume n now).2._refill now).tokens) /
            ((b.consume n now).2._refill now).refill_rate))
        (acc ++ [min (1/10 : ℚ)
          ((n - ((b.consume n now).2._refill now).tokens) /
            ((b.consume n now).2._refill now).refill_rate)]) := by
  rw [not_lt] at hs0
  simp only [TokenBucket.waitLoop, hfail, Bool.false_eq_true, if_false]
  rw [if_neg (by simp [hto] : ¬ ((decide (¬ t = 0) && decide (t < now - start)) = true))]
  rw [if_neg hr0, if_neg (not_lt.mpr hs0)]

/-- Every sleep performed by the polling loop lasts at most 0.1
seconds. -/
lemma waitLoop_sleeps_le : ∀ (fuel : ℕ) (b : TokenBucket) (n : ℚ) (tmo : Option ℚ)
    (start now : ℚ) (acc : List ℚ),
    (∀ x ∈ acc, x ≤ (1/10 : ℚ)) →
    ∀ x ∈ (TokenBucket.waitLoop fuel b n tmo start now acc).sleeps, x ≤ (1/10 : ℚ)
  | 0, b, n, tmo, start, now, acc, hacc => by
    simpa [TokenBucket.waitLoop] using hacc
  | Nat.succ fuel, b, n, tmo, start, now, acc, hacc => by
    simp only [TokenBucket.waitLoop]
    split
    · simpa using hacc
    · split
      · simpa using hacc
      · split
        · simpa using hacc
        · split
          · simpa using hacc
          · refine waitLoop_sleeps_le fuel _ n tmo start _ _ ?_
            intro x hx
            rcases List.mem_append.mp hx with h | h
            · exact hacc x h
            · rw [List.mem_singleton.mp h]
              exact min_le_left _ _

/-- The per-iteration lower bound on the sleep duration used in the
termination argument: 0.1 seconds when the request fits under the
capacity, and `min 0.1 ((n - capacity) / rate)` otherwise. -/
def waitDelta (n cap rate : ℚ) : ℚ :=
  if n ≤ cap then 1/10 else min (1/10) ((n - cap) / rate)

lemma waitDelta_pos (n cap rate : ℚ) (h : 0 < rate) : 0 < waitDelta n cap rate := by
  unfold waitDelta
  split
  · norm_num
  · rename_i hn
    exact lt_min (by norm_num) (div_pos (by linarith [not_le.mp hn]) h)

/-- Termination of the polling loop under a truthy positive timeout and
a positive refill rate: with fuel `m + 2` where
`t - (now - start) < m * waitDelta`, the loop returns a boolean. -/
lemma waitLoop_terminates (n t start : ℚ) (ht : 0 < t) :
    ∀ (m : ℕ) (b : TokenBucket) (now : ℚ) (acc : List ℚ),
      0 < b.refill_rate → b.tokens ≤ b.capacity → b.last_refill ≤ now →
      t - (now - start) < (m : ℚ) * waitDelta n b.capacity b.refill_rate →
      ∃ bl, (TokenBucket.waitLoop (m + 2) b n (some t) start now acc).outcome =
        WaitOutcome.ok bl := by
  intro m
  induction m with
  | zero =>
    intro b now acc hrate htok hlr hbound
    cases hc : (b.consume n now).1 with
    | true =>
      exact ⟨true, by rw [show (0 + 2 : ℕ) = Nat.succ 1 from rfl,
        waitLoop_consume_ok 1 b n (some t) start now acc hc]⟩
    | false =>
      have hto : t < now - start := by
        push_cast at hbound
        linarith
      exact ⟨false, by rw [show (0 + 2 : ℕ) = Nat.succ 1 from rfl,
        waitLoop_timed_out 1 b n t start now acc hc (ne_of_gt ht) hto]⟩
  | succ k ih =>
    intro b now acc hrate htok hlr hbound
    cases hc : (b.consume n now).1 with
    | true =>
      exact ⟨true, by rw [show (k + 1 + 2 : ℕ) = Nat.succ (k + 2) from rfl,
        waitLoop_consume_ok (k + 2) b n (some t) start now acc hc]⟩
    | false =>
      by_cases hto : t < now - start
      · exact ⟨false, by rw [show (k + 1 + 2 : ℕ) = Nat.succ (k + 2) from rfl,
          waitLoop_timed_out (k + 2) b n t start now acc hc (ne_of_gt ht) hto]⟩
      · -- the loop sleeps and polls again
        have hb1eq : (b.consume n now).2 = b._refill now :=
          consume_failed_bucket b n now hc
        have hb1lr : ((b.consume n now).2).last_refill = now := by
          rw [hb1eq]
          exact refill_last b now hrate hlr
        have hb2eq : ((b.consume n now).2)._refill now = (b.consume n now).2 :=
          refill_self _ now hb1lr
        have hcap1 : ((b.consume n now).2).capacity = b.capacity := by
          rw [hb1eq]
          exact refill_capacity b now
        have hrate1 : ((b.consume n now).2).refill_rate = b.refill_rate := by
          rw [hb1eq]
          exact refill_rate_eq b now
        have htokens1 : ((b.consume n now).2).tokens < n := by
          rw [hb1eq]
          exact consume_failed_tokens b n now hc
        have htok1 : ((b.consume n now).2).tokens ≤ b.capacity := by
          rw [hb1eq]
          exact refill_tokens_le b now htok
        have hwaitpos : 0 < (n - ((b.consume n now).2).tokens) /
            ((b.consume n now).2).refill_rate := by
          apply div_pos (by linarith)
          rw [hrate1]
          exact hrate
        have hspos : 0 < min (1/10 : ℚ)
            ((n - ((b.consume n now).2).tokens) / ((b.consume n now).2).refill_rate) :=
          lt_min (by norm_num) hwaitpos
        have hstep := waitLoop_step (k + 2) b n t start now acc hc (ne_of_gt ht) hto
          (by rw [hb2eq, hrate1]; exact ne_of_gt hrate)
          (by rw [hb2eq]; exact not_lt.mpr (le_of_lt hspos))
        rw [hb2eq] at hstep
        rw [show (k + 1 + 2 : ℕ) = Nat.succ (k + 2) from rfl, hstep]
        by_cases hn : n ≤ b.capacity
        · by_cases hw : (n - ((b.consume n now).2).tokens) /
              ((b.consume n now).2).refill_rate < 1/10
          · -- small residual wait: the next consume attempt succeeds
            have hsval : min (1/10 : ℚ)
                ((n - ((b.consume n now).2).tokens) / ((b.consume n now).2).refill_rate) =
                (n - ((b.consume n now).2).tokens) / ((b.consume n now).2).refill_rate :=
              min_eq_right (le_of_lt hw)
            rw [hsval]
            have hsucc : (((b.consume n now).2).consume n
                (now + (n - ((b.consume n now).2).tokens) /
                  ((b.consume n now).2).refill_rate)).1 = true := by
              apply consume_succeeds_after_wait _ n now _ (by rw [hrate1]; exact hrate)
                hb1lr rfl (by rw [hsval] at hspos; exact hspos)
              rw [hcap1]
              exact hn
            exact ⟨true, by rw [show (k + 2 : ℕ) = Nat.succ (k + 1) from rfl,
              waitLoop_consume_ok (k + 1) _ n (some t) start _ _ hsucc]⟩
          · -- full 0.1-second sleep
            have hsval : min (1/10 : ℚ)
                ((n - ((b.consume n now).2).tokens) / ((b.consume n now).2).refill_rate) =
                (1/10 : ℚ) :=
              min_eq_left (le_of_not_lt hw)
            rw [hsval]
            have hdelta : waitDelta n b.capacity b.refill_rate = 1/10 := by
              unfold waitDelta
              rw [if_pos hn]
            refine ih (b.consume n now).2 (now + 1/10) _ ?_ ?_ ?_ ?_
            · rw [hrate1]
              exact hrate
            · rw [hcap1]
              exact htok1
            · rw [hb1lr]
              linarith
            · rw [hcap1, hrate1, hdelta]
              rw [hdelta] at hbound
              push_cast at hbound ⊢
              linarith
        · -- request exceeds the capacity: the sleep never drops below
          -- min 0.1 ((n - capacity) / rate)
          have hdelta : waitDelta n b.capacity b.refill_rate =
              min (1/10) ((n - b.capacity) / b.refill_rate) := by
            unfold waitDelta
            rw [if_neg hn]
          have hwge : (n - b.capacity) / b.refill_rate ≤
              (n - ((b.consume n now).2).tokens) / ((b.consume n now).2).refill_rate := by
            rw [hrate1]
            gcongr
          have hsge : waitDelta n b.capacity b.refill_rate ≤
              min (1/10 : ℚ)
                ((n - ((b.consume n now).2).tokens) / ((b.consume n now).2).refill_rate) := by
            rw [hdelta]
            exact min_le_min (le_refl _) hwge
          refine ih (b.consume n now).2 _ _ ?_ ?_ ?_ ?_
          · rw [hrate1]
            exact hrate
          · rw [hcap1]
            exact htok1
          · rw [hb1lr]
            linarith
          · have hdeq : waitDelta n ((b.consume n now).2).capacity
                ((b.consume n now).2).refill_rate =
                waitDelta n b.capacity b.refill_rate := by
              rw [hcap1, hrate1]
            rw [hdeq]
            push_cast at hbound ⊢
            have hdpos : 0 < waitDelta n b.capacity b.refill_rate :=
              waitDelta_pos n b.capacity b.refill_rate hrate
            linarith [hsge]

/-- C9 amended: for every `wait_for_token(n, timeout)` call with a
positive timeout supplied and a positive refill rate (the counterexample
shows the rate-zero case raises `ZeroDivisionError`, and a zero timeout
is falsy in Python and means no timeout), the call terminates and
returns a boolean — `True` on success, `False` once the timeout elapses
— and every inter-attempt sleep interval is bounded above by 0.1
seconds. -/
theorem c9_wait_bounded (b : TokenBucket) (n t now : ℚ)
    (hrate : 0 < b.refill_rate) (ht : 0 < t)
    (htok : b.tokens ≤ b.capacity) (hlr : b.last_refill ≤ now) :
    (∃ fuel bl, (b.wait_for_token fuel n (some t) now).outcome = WaitOutcome.ok bl) ∧
    (∀ fuel, ∀ x ∈ (b.wait_for_token fuel n (some t) now).sleeps, x ≤ (1/10 : ℚ)) := by
  constructor
  · have hdpos : 0 < waitDelta n b.capacity b.refill_rate :=
      waitDelta_pos n b.capacity b.refill_rate hrate
    refine ⟨(⌈t / waitDelta n b.capacity b.refill_rate⌉₊ + 1) + 2, ?_⟩
    apply waitLoop_terminates n t now ht _ b now [] hrate htok hlr
    have h1 : t / waitDelta n b.capacity b.refill_rate ≤
        ((⌈t / waitDelta n b.capacity b.refill_rate⌉₊ : ℚ)) := Nat.le_ceil _
    have h2 : t = (t / waitDelta n b.capacity b.refill_rate) *
        waitDelta n b.capacity b.refill_rate :=
      (div_mul_cancel₀ t (ne_of_gt hdpos)).symm
    have h3 : (t / waitDelta n b.capacity b.refill_rate) *
        waitDelta n b.capacity b.refill_rate ≤
        ((⌈t / waitDelta n b.capacity b.refill_rate⌉₊ : ℚ)) *
          waitDelta n b.capacity b.refill_rate :=
      mul_le_mul_of_nonneg_right h1 (le_of_lt hdpos)
    push_cast
    linarith
  · intro fuel x hx
    exact waitLoop_sleeps_le fuel b n (some t) now now [] (by simp) x hx

/-- C9 witness: the bounded-wait behaviour at the bucket
`capacity = 2, refill_rate = 1` freshly created at time 0, requesting
one token with a five-second timeout. -/
theorem c9_wait_bounded_witness :
    (∃ fuel bl,
      ((TokenBucket.make 2 1 0).wait_for_token fuel 1 (some 5) 0).outcome =
        WaitOutcome.ok bl) ∧
    (∀ fuel, ∀ x ∈ ((TokenBucket.make 2 1 0).wait_for_token fuel 1 (some 5) 0).sleeps,
      x ≤ (1/10 : ℚ)) :=
  c9_wait_bounded (TokenBucket.make 2 1 0) 1 5 0
    (by norm_num [TokenBucket.make]) (by norm_num)
    (by norm_num [TokenBucket.make]) (by norm_num [TokenBucket.make])

end BatchProcessor
